import Mathlib

/-!
Verification of the `tiny` bytecode interpreter (`src/tiny.c`): a shallow
embedding of its compiler tables, parser, bytecode compiler, virtual machine
and mark-and-sweep garbage collector, together with theorems settling the
specification claims.

Modelling conventions:
* C `double` values are embedded as the type `FP` below: an explicit NaN
  plus sign-magnitude finite values over `ℚ`.  IEEE rounding and infinities
  are not modelled; no claim below depends on the rounded value of an
  arithmetic result, only on comparisons, signed zero and NaN behaviour,
  which the embedding reproduces.
* Fallible C code (`exit(1)`, failing `assert`) returns `Option`/`Except`
  `none`/`.error`; C undefined behaviour (out-of-bounds reads, use after
  free, union reinterpretation) is modelled as a distinguished error.
* Heap objects are addressed by `Nat` identifiers allocated from a counter,
  standing for `malloc` addresses; the GC chain `GCHead` is the list order.
* The unbounded C recursion of `Mark` is embedded fuel-indexed, with `none`
  for running out of fuel (the C function would still be running).
-/

/-! ## Doubles (`double` in the C source) -/

/-- A C `double`: NaN, or a finite value as sign and magnitude.  The two
representations of zero (`fin false 0` and `fin true 0`) model `+0.0` and
`-0.0`, which are distinct bit patterns but compare equal under `==`. -/
inductive FP where
  | nan : FP
  | fin (neg : Bool) (mag : ℚ) : FP
deriving DecidableEq, Repr

/-- The rational value of a finite double (`0` for NaN, unused there). -/
def FP.val : FP → ℚ
  | .nan => 0
  | .fin neg mag => if neg then -mag else mag

def FP.isNan : FP → Bool
  | .nan => true
  | .fin _ _ => false

/-- C `==` on doubles: false whenever either side is NaN, otherwise
comparison of the represented values (so `+0.0 == -0.0` is true). -/
def FP.ieeeEq (a b : FP) : Bool :=
  !a.isNan && !b.isNan && decide (a.val = b.val)

def FP.ofInt (n : Int) : FP := .fin false (n : ℚ)

def FP.ofBool (b : Bool) : FP := if b then .ofInt 1 else .ofInt 0

/-- C `<` on doubles: false whenever either side is NaN. -/
def FP.lt (a b : FP) : Bool :=
  !a.isNan && !b.isNan && decide (a.val < b.val)

/-- C `<=` on doubles: false whenever either side is NaN. -/
def FP.le (a b : FP) : Bool :=
  !a.isNan && !b.isNan && decide (a.val ≤ b.val)

/-- `value == 0` as used by `GOTOZ`/`GOTONZ` (NaN is nonzero). -/
def FP.eqZero (a : FP) : Bool := a.ieeeEq (.ofInt 0)

/-- Exact addition (IEEE rounding not modelled; see module comment). -/
def FP.add (a b : FP) : FP :=
  match a, b with
  | .nan, _ => .nan
  | _, .nan => .nan
  | x, y => .fin false (x.val + y.val)

def FP.sub (a b : FP) : FP :=
  match a, b with
  | .nan, _ => .nan
  | _, .nan => .nan
  | x, y => .fin false (x.val - y.val)

def FP.mul (a b : FP) : FP :=
  match a, b with
  | .nan, _ => .nan
  | _, .nan => .nan
  | x, y => .fin false (x.val * y.val)

/-- Division; a zero divisor yields an infinity or NaN in IEEE, collapsed
to NaN here (no claim depends on it). -/
def FP.div (a b : FP) : FP :=
  match a, b with
  | .nan, _ => .nan
  | _, .nan => .nan
  | x, y => if y.val = 0 then .nan else .fin false (x.val / y.val)

/-- The C cast `(int)d`: truncation toward zero.  The cast is undefined for
NaN and out-of-range values; NaN is mapped to 0 here and no claim uses it. -/
def FP.toInt : FP → Int
  | .nan => 0
  | .fin neg mag =>
      let q := if neg then -mag else mag
      if 0 ≤ q then q.floor else -((-q).floor)

/-! ## Constant pool (`ConstInfo`, `RegisterNumber`, `RegisterString`) -/

/-- `MAX_CONST_AMT` from the source. -/
def MAX_CONST_AMT : Nat := 256

/-- A constant-pool entry (`ConstInfo`): a tagged number or string. -/
inductive ConstInfo where
  | num (value : FP) : ConstInfo
  | str (s : String) : ConstInfo
deriving DecidableEq, Repr

/-- The per-entry test of the scan loop in `RegisterNumber`:
`Constants[i]->type == CST_NUM && Constants[i]->number == value`. -/
def constNumMatches (v : FP) : ConstInfo → Bool
  | .num w => w.ieeeEq v
  | .str _ => false

/-- The per-entry test of the scan loop in `RegisterString`:
`Constants[i]->type == CST_STR && strcmp(...) == 0` (byte equality). -/
def constStrMatches (s : String) : ConstInfo → Bool
  | .num _ => false
  | .str t => t == s

/-- `RegisterNumber`: scan the pool for an `==`-equal number, returning its
index; otherwise append (the `assert(ConstantAmount < MAX_CONST_AMT)` abort
on a full pool is `none`). -/
def registerNumber (cs : List ConstInfo) (v : FP) : Option (Nat × List ConstInfo) :=
  match cs.findIdx? (constNumMatches v) with
  | some i => some (i, cs)
  | none =>
      if cs.length < MAX_CONST_AMT then some (cs.length, cs ++ [.num v]) else none

/-- `RegisterString`: scan the pool for a byte-equal string, returning its
index; otherwise append (pool-overflow assert is `none`). -/
def registerString (cs : List ConstInfo) (s : String) : Option (Nat × List ConstInfo) :=
  match cs.findIdx? (constStrMatches s) with
  | some i => some (i, cs)
  | none =>
      if cs.length < MAX_CONST_AMT then some (cs.length, cs ++ [.str s]) else none

/-! ## Symbol tables (`Variables`, `FunctionNames`, locals) -/

/-- A `Variables` slot: name, use-before-set flag, named-member list
(`members`/`nmem`). -/
structure VarInfo where
  name : String
  initialized : Bool
  members : List String
deriving DecidableEq, Repr

/-- `RegisterVariableName`: return the index of an existing name, else
append an uninitialized slot.  (The C counterpart performs no bound check
against `MAX_VARS`.) -/
def registerVariableName (vars : List VarInfo) (name : String) :
    Nat × List VarInfo :=
  match vars.findIdx? (fun v => v.name == name) with
  | some i => (i, vars)
  | none => (vars.length, vars ++ [⟨name, false, []⟩])

/-- `RegisterFunction`: a foreign name wins and is encoded as `-i - 1`;
otherwise an existing or freshly appended user-procedure index. -/
def registerFunction (foreigns : List String) (funcs : List String)
    (name : String) : Int × List String :=
  match foreigns.findIdx? (fun n => n == name) with
  | some i => (-(i : Int) - 1, funcs)
  | none =>
      match funcs.findIdx? (fun n => n == name) with
      | some i => ((i : Int), funcs)
      | none => ((funcs.length : Int), funcs ++ [name])

/-- A local declaration (`LocalDecl`): negative indices are arguments. -/
structure LocalDecl where
  name : String
  idx : Int
  scope : Nat
deriving DecidableEq, Repr

/-! ## Tokens (`GetToken` results) and the parser state -/

/-- A lexer token: the C `int` token code together with the payload the
lexer leaves in `TokenBuffer`/`TokenNumber`. -/
inductive Token where
  | ident (name : String)
  | number (value : FP)
  | strlit (s : String)
  | localref (name : String)
  | kwBegin | kwEnd | kwRead | kwWrite | kwProc
  | kwIf | kwThen | kwWhile | kwReturn | kwLocal
  | equals | notequals | lte | gte
  | eofTok
  | ch (c : Char)
deriving DecidableEq, Repr

/-- What `GetToken` leaves in the global `TokenBuffer` after scanning a
token: identifiers, `$`-references, strings and keywords write the scanned
characters; operator and single-character tokens leave it untouched.  The
digit text of a number token is not tracked (`""`); it is only ever read
back by the dead named-member branch. -/
def Token.bufferText (t : Token) (old : String) : String :=
  match t with
  | .ident s => s
  | .localref s => s
  | .strlit s => s
  | .number _ => ""
  | .kwBegin => "begin"
  | .kwEnd => "end"
  | .kwRead => "read"
  | .kwWrite => "write"
  | .kwProc => "proc"
  | .kwIf => "if"
  | .kwThen => "then"
  | .kwWhile => "while"
  | .kwReturn => "return"
  | .kwLocal => "local"
  | _ => old

/-- The parser's mutable state: the one-token lookahead `CurTok`, the rest
of the token stream, and every global table the parser mutates. -/
structure PState where
  curTok : Token
  tokenBuffer : String
  toks : List Token
  vars : List VarInfo
  functionNames : List String
  foreignNames : List String
  constants : List ConstInfo
  currScope : Nat
  currNumLocals : Nat
  numArgsDeclared : Nat
  localDecls : List LocalDecl
deriving Repr

/-- `GetNextToken`: pull the next token into `CurTok` (the lexer returns
`TOK_EOF` forever at end of stream). -/
def getNextToken (st : PState) : PState :=
  match st.toks with
  | [] => { st with curTok := .eofTok,
                    tokenBuffer := Token.bufferText .eofTok st.tokenBuffer }
  | t :: rest => { st with curTok := t, toks := rest,
                           tokenBuffer := Token.bufferText t st.tokenBuffer }

/-- `DeclareLocal`: index is the running local count. -/
def declareLocal (st : PState) (name : String) : Nat × PState :=
  (st.currNumLocals,
   { st with
       localDecls := ⟨name, (st.currNumLocals : Int), st.currScope⟩ :: st.localDecls,
       currNumLocals := st.currNumLocals + 1 })

/-- `DeclareArgument`: the i-th of `nargs` arguments gets index `-nargs + i`. -/
def declareArgument (st : PState) (name : String) (nargs : Nat) : PState :=
  { st with
      numArgsDeclared := st.numArgsDeclared + 1,
      localDecls :=
        ⟨name, -(nargs : Int) + (st.numArgsDeclared : Int), st.currScope⟩ ::
          st.localDecls }

/-- `ReferenceLocal`: first declaration with a matching name whose scope is
at most the current scope; a missing local is a fatal diagnostic. -/
def referenceLocal (st : PState) (name : String) : Option Int :=
  (st.localDecls.find? (fun d => d.name == name && decide (d.scope ≤ st.currScope))).map
    (·.idx)

/-- `ClearLocals`. -/
def clearLocals (st : PState) : PState :=
  { st with localDecls := [], currNumLocals := 0 }

/-! ## The AST (`Expr`).  Statement chains built through the C `next`
pointers are represented as `List Expr`. -/

/-- An AST node, one constructor per `ExprType`.  `read` entries pair the
`isLocal` flag with the variable or local index. -/
inductive Expr where
  | id (ident : Nat)
  | call (callee : Int) (args : List Expr)
  | num (cidx : Nat)
  | strk (cidx : Nat)
  | binary (op : Token) (lhs rhs : Expr)
  | paren (e : Expr)
  | unary (op : Token) (e : Expr)
  | proc (name : Int) (body : List Expr) (numLocals : Nat)
  | ifx (cond : Expr) (body : List Expr)
  | whilex (cond : Expr) (body : List Expr)
  | localx (index : Nat)
  | localref (idx : Int)
  | makeArray (lengthExpr : Expr)
  | arrayIndex (isGlobalArray : Bool) (arrayVariableIndex : Int) (indexExpr : Expr)
  | namedMemberArray (members : List String)
  | ret (e : Option Expr)
  | readx (ids : List (Bool × Int))
  | writex (exprs : List Expr)
deriving Repr

/-! ## The parser (`ParseFactor` / `ParseBinRhs` / `ParseExpr`).

All parser failures (`exit(1)` diagnostics and failing `assert`s) are
`none`.  The functions are fuel-indexed because the C recursion is bounded
only by the input; every claim below supplies ample fuel. -/

/-- `GetTokenPrec`: operator precedence of the lookahead token. -/
def getTokenPrec (t : Token) : Int :=
  match t with
  | .ch '*' | .ch '/' | .ch '%' | .ch '&' | .ch '|' => 5
  | .ch '+' | .ch '-' => 4
  | .lte | .gte | .equals | .notequals | .ch '<' | .ch '>' => 3
  | .ch '=' => 1
  | _ => -1

mutual

/-- `ParseFactor`. -/
def parseFactor : Nat → PState → Option (Expr × PState)
  | 0, _ => none
  | fuel + 1, st =>
    match st.curTok with
    | .ident name =>
        let st := getNextToken st
        if st.curTok = .ch '(' then
          -- call
          let st := getNextToken st
          match parseCallArgs fuel st [] with
          | none => none
          | some (args, st) =>
              let (callee, funcs) :=
                registerFunction st.foreignNames st.functionNames name
              let st := { st with functionNames := funcs }
              let st := getNextToken st
              some (.call callee args, st)
        else if st.curTok = .ch '[' then
          -- global array indexing
          let st := getNextToken st
          let (idx, vars) := registerVariableName st.vars name
          let st := { st with vars := vars }
          match parseExpr fuel st with
          | none => none
          | some (e, st) =>
              let st := getNextToken st  -- eat the closing bracket (unchecked in C)
              some (.arrayIndex true (idx : Int) e, st)
        else
          let (idx, vars) := registerVariableName st.vars name
          some (.id idx, { st with vars := vars })
    | .ch c =>
        if c = Char.ofNat 123 then
          -- named member array literal
          let st := getNextToken st
          match parseMembers fuel st [] with
          | none => none
          | some (members, st) => some (.namedMemberArray members, getNextToken st)
        else if c = '[' then
          let st := getNextToken st
          match parseExpr fuel st with
          | none => none
          | some (e, st) =>
              let st := getNextToken st  -- eat the closing bracket (unchecked in C)
              some (.makeArray e, st)
        else if c = '-' ∨ c = '+' then
          let op := st.curTok
          let st := getNextToken st
          match parseFactor fuel st with
          | none => none
          | some (e, st) => some (.unary op e, st)
        else if c = '(' then
          let st := getNextToken st
          match parseExpr fuel st with
          | none => none
          | some (inner, st) =>
              if st.curTok = .ch ')' then some (.paren inner, getNextToken st)
              else none
        else none
    | .number v =>
        match registerNumber st.constants v with
        | none => none
        | some (cidx, cs) => some (.num cidx, getNextToken { st with constants := cs })
    | .strlit s =>
        match registerString st.constants s with
        | none => none
        | some (cidx, cs) => some (.strk cidx, getNextToken { st with constants := cs })
    | .kwLocal =>
        if st.currScope = 0 then none
        else
          let st := getNextToken st
          match st.curTok with
          | .ident _ =>
              let (idx, st) := declareLocal st st.tokenBuffer
              some (.localx idx, getNextToken st)
          | _ => none
    | .localref name =>
        match referenceLocal st name with
        | none => none
        | some idx =>
            let st := getNextToken st
            if st.curTok = .ch '[' then
              let st := getNextToken st
              match parseExpr fuel st with
              | none => none
              | some (e, st) =>
                  let st := getNextToken st  -- eat the closing bracket
                  some (.arrayIndex false idx e, st)
            else some (.localref idx, st)
    | .kwProc =>
        if st.currScope ≠ 0 then none
        else
          let st := getNextToken st
          match st.curTok with
          | .ident _ =>
              let (pname, funcs) :=
                registerFunction st.foreignNames st.functionNames st.tokenBuffer
              let st := { st with functionNames := funcs }
              let st := getNextToken st
              let st := { st with currScope := st.currScope + 1 }
              if st.curTok = .ch '(' then
                let st := getNextToken st
                match parseProcArgNames fuel st [] with
                | none => none
                | some (args, st) =>
                    let st := args.foldl
                      (fun st nm => declareArgument st nm args.length) st
                    let st := { st with numArgsDeclared := 0 }
                    let st := getNextToken st
                    match parseStmtsUntilEnd fuel st with
                    | none => none
                    | some (body, st) =>
                        let numLocals := st.currNumLocals
                        let st := { st with currScope := st.currScope - 1 }
                        let st := clearLocals st
                        some (.proc pname body numLocals, getNextToken st)
              else none
          | _ => none
    | .kwIf =>
        let st := getNextToken st
        match parseExpr fuel st with
        | none => none
        | some (cond, st) =>
            if st.curTok = .kwThen then
              let st := getNextToken st
              let st := { st with currScope := st.currScope + 1 }
              match parseStmtsUntilEnd fuel st with
              | none => none
              | some (body, st) =>
                  let st := { st with currScope := st.currScope - 1 }
                  some (.ifx cond body, getNextToken st)
            else none
    | .kwWhile =>
        let st := getNextToken st
        match parseExpr fuel st with
        | none => none
        | some (cond, st) =>
            let st := { st with currScope := st.currScope + 1 }
            match parseStmtsUntilEnd fuel st with
            | none => none
            | some (body, st) =>
                let st := { st with currScope := st.currScope - 1 }
                some (.whilex cond body, getNextToken st)
    | .kwReturn =>
        let st := getNextToken st
        if st.curTok = .ch ';' then some (.ret none, getNextToken st)
        else
          match parseExpr fuel st with
          | none => none
          | some (e, st) => some (.ret (some e), st)
    | .kwRead =>
        let st := getNextToken st
        match parseReadIds fuel st [] with
        | none => none
        | some (ids, st) => some (.readx ids, getNextToken st)
    | .kwWrite =>
        let st := getNextToken st
        match parseWriteExprs fuel st [] with
        | none => none
        | some (es, st) => some (.writex es, getNextToken st)
    | _ => none

/-- The argument loop of the call case of `ParseFactor`. -/
def parseCallArgs : Nat → PState → List Expr → Option (List Expr × PState)
  | 0, _, _ => none
  | fuel + 1, st, acc =>
    if st.curTok = .ch ')' then some (acc, st)
    else
      match parseExpr fuel st with
      | none => none
      | some (e, st) =>
          if st.curTok = .ch ',' then parseCallArgs fuel (getNextToken st) (acc ++ [e])
          else if st.curTok = .ch ')' then parseCallArgs fuel st (acc ++ [e])
          else none

/-- The member-name loop of the named-member-array case: it copies
`TokenBuffer` but only advances past commas, so any other token than `,`
or the closing brace is a fatal diagnostic. -/
def parseMembers : Nat → PState → List String → Option (List String × PState)
  | 0, _, _ => none
  | fuel + 1, st, acc =>
    if st.curTok = .ch (Char.ofNat 125) then some (acc, st)
    else
      let acc := acc ++ [st.tokenBuffer]
      if st.curTok = .ch ',' then parseMembers fuel (getNextToken st) acc
      else none

/-- The parameter-name loop of the proc case of `ParseFactor`. -/
def parseProcArgNames : Nat → PState → List String → Option (List String × PState)
  | 0, _, _ => none
  | fuel + 1, st, acc =>
    if st.curTok = .ch ')' then some (acc, st)
    else
      match st.curTok with
      | .ident _ =>
          let nm := st.tokenBuffer
          let st := getNextToken st
          if st.curTok = .ch ',' then
            parseProcArgNames fuel (getNextToken st) (acc ++ [nm])
          else if st.curTok = .ch ')' then parseProcArgNames fuel st (acc ++ [nm])
          else none
      | _ => none

/-- The statement loop shared by the proc, if and while cases: parse
expressions until the lookahead is `end`. -/
def parseStmtsUntilEnd : Nat → PState → Option (List Expr × PState)
  | 0, _ => none
  | fuel + 1, st =>
    if st.curTok = .kwEnd then some ([], st)
    else
      match parseExpr fuel st with
      | none => none
      | some (e, st) =>
          match parseStmtsUntilEnd fuel st with
          | none => none
          | some (rest, st) => some (e :: rest, st)

/-- The variable loop of the read case of `ParseFactor`. -/
def parseReadIds : Nat → PState → List (Bool × Int) →
    Option (List (Bool × Int) × PState)
  | 0, _, _ => none
  | fuel + 1, st, acc =>
    if st.curTok = .kwEnd then some (acc, st)
    else
      match st.curTok with
      | .ident _ =>
          let (i, vars) := registerVariableName st.vars st.tokenBuffer
          let st := { st with vars := vars }
          parseReadIds fuel (getNextToken st) (acc ++ [(false, (i : Int))])
      | .localref _ =>
          match referenceLocal st st.tokenBuffer with
          | none => none
          | some i => parseReadIds fuel (getNextToken st) (acc ++ [(true, i)])
      | _ => none

/-- The expression loop of the write case of `ParseFactor`. -/
def parseWriteExprs : Nat → PState → List Expr → Option (List Expr × PState)
  | 0, _, _ => none
  | fuel + 1, st, acc =>
    if st.curTok = .kwEnd then some (acc, st)
    else
      match parseExpr fuel st with
      | none => none
      | some (e, st) => parseWriteExprs fuel st (acc ++ [e])

/-- `ParseBinRhs`: precedence climbing.  An operator of precedence lower
than `exprPrec` ends the claim on `lhs`; a strictly higher-precedence
follower binds tighter via the recursive call; equal precedence folds
left into `newLhs`. -/
def parseBinRhs : Nat → Int → Expr → PState → Option (Expr × PState)
  | 0, _, _, _ => none
  | fuel + 1, exprPrec, lhs, st =>
    let prec := getTokenPrec st.curTok
    if prec < exprPrec then some (lhs, st)
    else
      let binOp := st.curTok
      let st := getNextToken st
      match parseFactor fuel st with
      | none => none
      | some (rhs, st) =>
          let nextPrec := getTokenPrec st.curTok
          let contin :=
            if prec < nextPrec then parseBinRhs fuel (prec + 1) rhs st
            else some (rhs, st)
          match contin with
          | none => none
          | some (rhs, st) => parseBinRhs fuel exprPrec (.binary binOp lhs rhs) st

/-- `ParseExpr`. -/
def parseExpr : Nat → PState → Option (Expr × PState)
  | 0, _ => none
  | fuel + 1, st =>
    match parseFactor fuel st with
    | none => none
    | some (factor, st) => parseBinRhs fuel 0 factor st

end

/-- The statement loop of `ParseProgram`. -/
def parseStmtsUntilEof : Nat → PState → Option (List Expr × PState)
  | 0, _ => none
  | fuel + 1, st =>
    if st.curTok = .eofTok then some ([], st)
    else
      match parseExpr fuel st with
      | none => none
      | some (e, st) =>
          match parseStmtsUntilEof fuel st with
          | none => none
          | some (rest, st) => some (e :: rest, st)

/-- The parser state at `CompileFile` entry: empty tables, scope 0, the
null character as the initial `CurTok`. -/
def initPState (toks : List Token) : PState :=
  { curTok := .ch (Char.ofNat 0), tokenBuffer := "", toks := toks,
    vars := [], functionNames := [], foreignNames := [], constants := [],
    currScope := 0, currNumLocals := 0, numArgsDeclared := 0, localDecls := [] }

/-- `ParseProgram`: load the first token, then parse statements to EOF. -/
def parseProgram (fuel : Nat) (toks : List Token) : Option (List Expr × PState) :=
  parseStmtsUntilEof fuel (getNextToken (initPState toks))

/-! ## Opcodes and bytecode emission -/

def OP_PUSH : Nat := 0
def OP_POP : Nat := 1
def OP_ADD : Nat := 2
def OP_SUB : Nat := 3
def OP_MUL : Nat := 4
def OP_DIV : Nat := 5
def OP_MOD : Nat := 6
def OP_OR : Nat := 7
def OP_AND : Nat := 8
def OP_LT : Nat := 9
def OP_LTE : Nat := 10
def OP_GT : Nat := 11
def OP_GTE : Nat := 12
def OP_EQU : Nat := 13
def OP_NEQU : Nat := 14
def OP_PRINT : Nat := 15
def OP_SET : Nat := 16
def OP_GET : Nat := 17
def OP_READ : Nat := 18
def OP_GOTO : Nat := 19
def OP_GOTOZ : Nat := 20
def OP_GOTONZ : Nat := 21
def OP_CALL : Nat := 22
def OP_RETURN : Nat := 23
def OP_RETURN_VALUE : Nat := 24
def OP_CALLF : Nat := 25
def OP_GETLOCAL : Nat := 26
def OP_SETLOCAL : Nat := 27
def OP_MAKE_ARRAY : Nat := 28
def OP_SETINDEX : Nat := 29
def OP_GETINDEX : Nat := 30
def OP_HALT : Nat := 31

/-- Capacity constants from the source. -/
def MAX_PROG_LEN : Nat := 2048
def MAX_STACK : Nat := 1024
def MAX_INDIR : Nat := 1024

/-- The four bytes of a 32-bit immediate (`GenerateInt`/`ReadInteger` use
host byte order; little-endian two's complement here, which no claim
depends on). -/
def encodeInt (v : Int) : List Nat :=
  let n := (v % (2 ^ 32 : Int)).toNat
  [n % 256, n / 256 % 256, n / 256 / 256 % 256, n / 256 / 256 / 256 % 256]

/-- Decode a 32-bit immediate at `pos` (`ReadInteger`). -/
def readInt (prog : List Nat) (pos : Nat) : Option Int := do
  let b0 ← prog.get? pos
  let b1 ← prog.get? (pos + 1)
  let b2 ← prog.get? (pos + 2)
  let b3 ← prog.get? (pos + 3)
  let n := b0 + 256 * (b1 + 256 * (b2 + 256 * b3))
  pure (if n < 2 ^ 31 then (n : Int) else (n : Int) - 2 ^ 32)

/-- The compiler's state: the growing bytecode buffer and the tables
`CompileExpr` reads or writes. -/
structure CState where
  program : List Nat
  vars : List VarInfo
  functionPcs : List Int
  constants : List ConstInfo
deriving Repr

/-- `GenerateCode`: append a byte; `assert(ProgramLength < MAX_PROG_LEN)`
is `none`. -/
def generateCode (st : CState) (b : Nat) : Option CState :=
  if st.program.length < MAX_PROG_LEN then
    some { st with program := st.program ++ [b] }
  else none

/-- `GenerateInt`: append the four immediate bytes. -/
def generateInt (st : CState) (v : Int) : Option CState :=
  (encodeInt v).foldlM generateCode st

/-- `GenerateIntAt`: patch the four immediate bytes at `pc` in place. -/
def generateIntAt (st : CState) (v : Int) (pc : Nat) : CState :=
  { st with
      program :=
        ((encodeInt v).foldl (fun (p : List Nat × Nat) b => (p.1.set p.2 b, p.2 + 1))
          (st.program, pc)).1 }

/-- The local zero-initialization loop of the proc case: `numLocals` times
`PUSH` the registered constant `0`. -/
def compileProcLocals : CState → Nat → Option CState
  | st, 0 => some st
  | st, n + 1 => do
      let (cidx, cs) ← registerNumber st.constants (FP.ofInt 0)
      let st ← generateCode { st with constants := cs } OP_PUSH
      let st ← generateInt st (cidx : Int)
      compileProcLocals st n

/-- The emission loop of the read case: `READ` then `SET`/`SETLOCAL` per
listed variable. -/
def compileReadIds : CState → List (Bool × Int) → Option CState
  | st, [] => some st
  | st, (isLocal, idv) :: rest => do
      let st ← generateCode st OP_READ
      let st ← generateCode st (if isLocal then OP_SETLOCAL else OP_SET)
      let st ← generateInt st idv
      compileReadIds st rest

mutual

/-- `CompileExpr`: one post-order walk emitting bytecode.  Fatal compile
diagnostics and failing asserts are `none`; an `Expr` index that escapes
its table (impossible for parser output) is also `none`. -/
def compileExpr : Nat → CState → Expr → Option CState
  | 0, _, _ => none
  | _fuel + 1, st, .id i =>
      match st.vars.get? i with
      | none => none
      | some v =>
          if !v.initialized then none  -- use of uninitialized variable: fatal
          else do
            let st ← generateCode st OP_GET
            generateInt st (i : Int)
  | fuel + 1, st, .call callee args => do
      let st ← compileExprList fuel st args
      if callee < 0 then do
        let st ← generateCode st OP_CALLF
        generateInt st (-(callee + 1))
      else do
        let st ← generateCode st OP_CALL
        let st ← generateInt st (args.length : Int)
        generateInt st callee
  | _fuel + 1, st, .num cidx => do
      let st ← generateCode st OP_PUSH
      generateInt st (cidx : Int)
  | _fuel + 1, st, .strk cidx => do
      let st ← generateCode st OP_PUSH
      generateInt st (cidx : Int)
  | _fuel + 1, st, .localx _ => some st  -- local declarations emit no code
  | _fuel + 1, st, .localref idx => do
      let st ← generateCode st OP_GETLOCAL
      generateInt st idx
  | _fuel + 1, st, .readx ids => compileReadIds st ids
  | fuel + 1, st, .writex es => compileWriteExprs fuel st es
  | fuel + 1, st, .binary op lhs rhs =>
      match op with
      | .ch '=' =>
          match lhs with
          | .id i =>
              match rhs with
              | .namedMemberArray members =>
                  -- copy the member list into the variable; no code emitted
                  (match st.vars.get? i with
                   | none => none
                   | some v =>
                       some { st with vars := st.vars.set i { v with members := members } })
              | _ => do
                  let st ← compileExpr fuel st rhs
                  let st ← generateCode st OP_SET
                  let st ← generateInt st (i : Int)
                  match st.vars.get? i with
                  | none => none
                  | some v =>
                      some { st with vars := st.vars.set i { v with initialized := true } }
          | .localx k => do
              let st ← compileExpr fuel st rhs
              let st ← generateCode st OP_SETLOCAL
              generateInt st (k : Int)
          | .localref k => do
              let st ← compileExpr fuel st rhs
              let st ← generateCode st OP_SETLOCAL
              generateInt st k
          | .arrayIndex isGlobal v ie => do
              let st ← generateCode st (if isGlobal then OP_GET else OP_GETLOCAL)
              let st ← generateInt st v
              let st ← compileExpr fuel st ie
              let st ← compileExpr fuel st rhs
              generateCode st OP_SETINDEX
          | _ => none  -- invalid assignment target: fatal
      | .ch '.' =>
          -- named member access: only the lhs check is implemented; the
          -- branch body is empty in the source and emits nothing
          (match lhs with
           | .id _ => some st
           | _ => none)
      | .ch '+' => do
          let st ← compileExpr fuel st lhs
          let st ← compileExpr fuel st rhs
          generateCode st OP_ADD
      | .ch '*' => do
          let st ← compileExpr fuel st lhs
          let st ← compileExpr fuel st rhs
          generateCode st OP_MUL
      | .ch '/' => do
          let st ← compileExpr fuel st lhs
          let st ← compileExpr fuel st rhs
          generateCode st OP_DIV
      | .ch '%' => do
          let st ← compileExpr fuel st lhs
          let st ← compileExpr fuel st rhs
          generateCode st OP_MOD
      | .ch '|' => do
          let st ← compileExpr fuel st lhs
          let st ← compileExpr fuel st rhs
          generateCode st OP_OR
      | .ch '&' => do
          let st ← compileExpr fuel st lhs
          let st ← compileExpr fuel st rhs
          generateCode st OP_AND
      | .ch '-' => do
          let st ← compileExpr fuel st lhs
          let st ← compileExpr fuel st rhs
          generateCode st OP_SUB
      | .ch '<' => do
          let st ← compileExpr fuel st lhs
          let st ← compileExpr fuel st rhs
          generateCode st OP_LT
      | .ch '>' => do
          let st ← compileExpr fuel st lhs
          let st ← compileExpr fuel st rhs
          generateCode st OP_GT
      | .equals => do
          let st ← compileExpr fuel st lhs
          let st ← compileExpr fuel st rhs
          generateCode st OP_EQU
      | .notequals => do
          let st ← compileExpr fuel st lhs
          let st ← compileExpr fuel st rhs
          generateCode st OP_NEQU
      | .lte => do
          let st ← compileExpr fuel st lhs
          let st ← compileExpr fuel st rhs
          generateCode st OP_LTE
      | .gte => do
          let st ← compileExpr fuel st lhs
          let st ← compileExpr fuel st rhs
          generateCode st OP_GTE
      | _ => some st  -- no matching case in the C switch: nothing emitted
  | fuel + 1, st, .paren e => compileExpr fuel st e
  | fuel + 1, st, .unary op e => do
      let st ← compileExpr fuel st e
      match op with
      | .ch '-' => do
          let (cidx, cs) ← registerNumber st.constants (FP.ofInt (-1))
          let st ← generateCode { st with constants := cs } OP_PUSH
          let st ← generateInt st (cidx : Int)
          generateCode st OP_MUL
      | _ => some st  -- only unary minus has a case in the C switch
  | fuel + 1, st, .proc name body numLocals =>
      -- a negative id (proc sharing a foreign name) would index
      -- FunctionPcs out of bounds in C: undefined, modelled as none
      if name < 0 then none
      else do
        let st ← generateCode st OP_GOTO
        let skipGotoPc := st.program.length
        let st ← generateInt st 0
        let st := { st with
          functionPcs := st.functionPcs.set name.toNat (st.program.length : Int) }
        let st ← compileProcLocals st numLocals
        let st ← compileExprList fuel st body
        let st ← generateCode st OP_RETURN
        pure (generateIntAt st (st.program.length : Int) skipGotoPc)
  | fuel + 1, st, .ifx cond body => do
      let st ← compileExpr fuel st cond
      let st ← generateCode st OP_GOTOZ
      let skipGotoPc := st.program.length
      let st ← generateInt st 0
      let st ← compileExprList fuel st body
      pure (generateIntAt st (st.program.length : Int) skipGotoPc)
  | fuel + 1, st, .whilex cond body => do
      let condPc := st.program.length
      let st ← compileExpr fuel st cond
      let st ← generateCode st OP_GOTOZ
      let skipGotoPc := st.program.length
      let st ← generateInt st 0
      let st ← compileExprList fuel st body
      let st ← generateCode st OP_GOTO
      let st ← generateInt st (condPc : Int)
      pure (generateIntAt st (st.program.length : Int) skipGotoPc)
  | fuel + 1, st, .makeArray e => do
      let st ← compileExpr fuel st e
      generateCode st OP_MAKE_ARRAY
  | fuel + 1, st, .arrayIndex isGlobal v ie => do
      -- note: no initialization check on the array variable here
      let st ← generateCode st (if isGlobal then OP_GET else OP_GETLOCAL)
      let st ← generateInt st v
      let st ← compileExpr fuel st ie
      generateCode st OP_GETINDEX
  | fuel + 1, st, .ret e =>
      match e with
      | some e => do
          let st ← compileExpr fuel st e
          generateCode st OP_RETURN_VALUE
      | none => generateCode st OP_RETURN
  | _fuel + 1, st, .namedMemberArray _ => some st  -- no case in the C switch

/-- `CompileProgram`: compile a statement chain. -/
def compileExprList : Nat → CState → List Expr → Option CState
  | 0, _, _ => none
  | _fuel + 1, st, [] => some st
  | fuel + 1, st, e :: rest => do
      let st ← compileExpr fuel st e
      compileExprList fuel st rest

/-- The emission loop of the write case: each expression followed by
`PRINT`. -/
def compileWriteExprs : Nat → CState → List Expr → Option CState
  | 0, _, _ => none
  | _fuel + 1, st, [] => some st
  | fuel + 1, st, e :: rest => do
      let st ← compileExpr fuel st e
      let st ← generateCode st OP_PRINT
      compileWriteExprs fuel st rest

end

/-! ## Runtime objects and the VM state -/

/-- A heap object's payload (`Object`): `uninit` is a freshly `malloc`ed
object whose fields have not been written yet.  Array slots hold nullable
object references.  A native object is reduced to what the collector sees
of it: the set of objects its `ptrMark` hook would mark. -/
inductive ObjData where
  | uninit
  | num (value : FP)
  | str (s : String)
  | arr (values : List (Option Nat))
  | native (markChildren : List Nat)
deriving DecidableEq, Repr

/-- What a `PRINT` emits: `%g` of a number or `%s` of a string (the exact
`printf` rendering is not modelled). -/
inductive OutItem where
  | num (value : FP)
  | str (s : String)
deriving DecidableEq, Repr

/-- A VM error: a fatal diagnostic with `exit(1)` (`fatal`, carrying the
C message), C undefined behaviour (`ub`), or exhaustion of the fuel
bounding the GC mark recursion (`noFuel` — the C code would still be
recursing). -/
inductive VmError where
  | fatal (msg : String)
  | ub (msg : String)
  | noFuel
deriving DecidableEq, Repr

/-- The whole machine: program, registers, operand and indirection stacks,
globals, heap with GC bookkeeping, constant pool, procedure entry points,
and the observable input/output streams. -/
structure VmState where
  program : List Nat
  pc : Int
  stack : List Nat
  indirStack : List Int
  framePointer : Nat
  globals : List (Option Nat)
  rtVarAmount : Nat
  heap : List (Nat × ObjData)
  nextId : Nat
  numObjects : Nat
  maxNumObjects : Nat
  constants : List ConstInfo
  functionPcs : List Int
  output : List OutItem
  input : List String
deriving Repr

/-- `InitInterpreter` (via `ResetMachine`): everything cleared, GC
threshold pre-seeded to 2. -/
def initInterpreter : VmState :=
  { program := [], pc := -1, stack := [], indirStack := [], framePointer := 0,
    globals := List.replicate 128 none, rtVarAmount := 0, heap := [],
    nextId := 0, numObjects := 0, maxNumObjects := 2, constants := [],
    functionPcs := List.replicate 128 0, output := [], input := [] }

/-! ## The garbage collector -/

/-- `Mark`, fuel-indexed (its C recursion is unbounded): an already-marked
object is left alone; otherwise the children of an array (every non-null
element) and of a native object (via its mark hook) are visited first, and
only then is the object's own mark bit set — exactly the source's order.
A dangling identifier (freed object) is undefined in C and yields `none`;
`none` also reports fuel exhaustion. -/
def mark : Nat → List (Nat × ObjData) → List Nat → Nat → Option (List Nat)
  | 0, _, _, _ => none
  | fuel + 1, heap, marked, id =>
    if marked.contains id then some marked
    else
      match heap.lookup id with
      | none => none
      | some d => do
          let m ←
            match d with
            | .arr vs =>
                vs.foldlM
                  (fun m ov =>
                    match ov with
                    | none => some m  -- null elements are skipped
                    | some cid => mark fuel heap m cid)
                  marked
            | .native cs => cs.foldlM (mark fuel heap) marked
            | _ => some marked
          some (if m.contains id then m else id :: m)

/-- `Mark` applied to a nullable reference (a never-assigned global): the
C function prints a message and returns. -/
def markOpt (fuel : Nat) (heap : List (Nat × ObjData)) (marked : List Nat) :
    Option Nat → Option (List Nat)
  | none => some marked
  | some id => mark fuel heap marked id

/-- `MarkAll`: the roots are the operand stack slots `0..StackSize-1` and
the global slots `0..RuntimeVariableAmount-1`. -/
def markAll (fuel : Nat) (s : VmState) : Option (List Nat) := do
  let m ← s.stack.foldlM (mark fuel s.heap) []
  (List.range s.rtVarAmount).foldlM
    (fun m i => markOpt fuel s.heap m (s.globals.getD i none)) m

/-- `Sweep`: unlink and free every unmarked object, decrementing the live
count once per freed object; survivors are unmarked (implicit here, the
mark set being local to a collection). -/
def sweep (s : VmState) (marked : List Nat) : VmState :=
  let survivors := s.heap.filter (fun p => marked.contains p.1)
  { s with heap := survivors,
           numObjects := s.numObjects - (s.heap.length - survivors.length) }

/-- `GarbageCollect`: mark from the roots, sweep, then set the threshold to
twice the surviving live count. -/
def garbageCollect (fuel : Nat) (s : VmState) : Except VmError VmState :=
  match markAll fuel s with
  | none => .error .noFuel
  | some m =>
      let s := sweep s m
      .ok { s with maxNumObjects := s.numObjects * 2 }

/-- The unconditional part of `NewObject`: link a fresh object (fields not
yet written) at the head of the GC chain. -/
def allocate (s : VmState) : Nat × VmState :=
  (s.nextId,
   { s with heap := (s.nextId, .uninit) :: s.heap, nextId := s.nextId + 1,
            numObjects := s.numObjects + 1 })

/-- `NewObject`: collect first when the live count has reached the
threshold, then allocate. -/
def newObject (fuel : Nat) (s : VmState) : Except VmError (Nat × VmState) :=
  if s.maxNumObjects ≤ s.numObjects then (garbageCollect fuel s).map allocate
  else .ok (allocate s)

/-- Overwrite the payload of a live object (a C field assignment through
an object pointer). -/
def setHeap (s : VmState) (id : Nat) (d : ObjData) : VmState :=
  { s with heap := s.heap.map (fun p => if p.1 = id then (p.1, d) else p) }

/-- Read an object's payload; reading through a dangling pointer (freed
object) is undefined in C. -/
def heapObj (s : VmState) (id : Nat) : Except VmError ObjData :=
  match s.heap.lookup id with
  | some d => .ok d
  | none => .error (.ub "object read through a dangling pointer")

/-- Read `obj->number`; on a non-number object the C reads reinterpreted
union bytes, undefined here. -/
def heapNum (s : VmState) (id : Nat) : Except VmError FP := do
  match ← heapObj s id with
  | .num v => .ok v
  | _ => .error (.ub "number field of a non-number object")

/-! ## Stacks -/

/-- `DoPush`: overflow of the 1024-slot operand stack is a fatal
diagnostic. -/
def doPush (v : Nat) (s : VmState) : Except VmError VmState :=
  if MAX_STACK ≤ s.stack.length then .error (.fatal "Stack Overflow")
  else .ok { s with stack := s.stack ++ [v] }

/-- `DoPop`: underflow is a fatal diagnostic. -/
def doPop (s : VmState) : Except VmError (Nat × VmState) :=
  match s.stack.getLast? with
  | none => .error (.fatal "Stack Underflow")
  | some v => .ok (v, { s with stack := s.stack.dropLast })

/-- `DoPushIndir`: save `⟨nargs, frame pointer, pc⟩` and start the new
frame at the current stack size.  The C source performs no capacity check
against `MAX_INDIR` (unlike `DoPush`), so neither does the model. -/
def doPushIndir (nargs : Int) (s : VmState) : VmState :=
  { s with
      indirStack := s.pc :: (s.framePointer : Int) :: nargs :: s.indirStack,
      framePointer := s.stack.length }

/-- `DoPopIndir`: truncate the stack to the frame pointer, restore pc and
frame pointer, drop the arguments.  The model keeps only the live prefix
`Stack[0..StackSize-1]`; a frame pointer above the live size or a negative
resulting size would re-expose stale C array slots (or set a negative
`StackSize`), which no compiled program reaches — modelled as undefined. -/
def doPopIndir (s : VmState) : Except VmError VmState :=
  match s.indirStack with
  | prevPc :: prevFp :: nargs :: rest =>
      if s.framePointer ≤ s.stack.length ∧ 0 ≤ nargs ∧
          nargs ≤ (s.framePointer : Int) ∧ 0 ≤ prevFp then
        .ok { s with
                stack := s.stack.take (s.framePointer - nargs.toNat),
                indirStack := rest,
                framePointer := prevFp.toNat,
                pc := prevPc }
      else .error (.ub "return frame outside the live stack")
  | _ => .error (.ub "indirection stack underflow")

/-! ## Instruction dispatch (`ExecuteCycle`).

Each `case` of the C `switch` is its own definition; `executeCycle`
dispatches on the opcode.  `fuel` only bounds the GC mark recursion and is
passed to the cases that allocate. -/

/-- The body of the `BIN_OP` macro: pop `val2` then `val1`, allocate the
result (a GC safe point), only then read the operands' number fields, and
push.  The final pc is the instruction's successor. -/
def execBinOp (fuel : Nat) (s : VmState) (f : FP → FP → FP) :
    Except VmError VmState := do
  let (v2, s) ← doPop s
  let (v1, s) ← doPop s
  let (rid, s) ← newObject fuel s
  let a ← heapNum s v1
  let b ← heapNum s v2
  let s := setHeap s rid (.num (f a b))
  let s ← doPush rid s
  .ok { s with pc := s.pc + 1 }

/-- A C `int` seen as its 32-bit two's complement bits, for `|` and `&`. -/
def toBits32 (v : Int) : Nat := (v % (2 ^ 32 : Int)).toNat

/-- Back from 32-bit two's complement bits to a C `int`. -/
def ofBits32 (n : Nat) : Int := if n < 2 ^ 31 then (n : Int) else (n : Int) - 2 ^ 32

/-- Pad-and-set for the `Variables[varIdx].object = ...` store. -/
def setGlobal (g : List (Option Nat)) (i : Nat) (v : Nat) : List (Option Nat) :=
  (g ++ List.replicate (i + 1 - g.length) none).set i (some v)

/-- The `OP_PUSH` case: a fresh copy of the indexed constant. -/
def execPush (fuel : Nat) (s : VmState) : Except VmError VmState := do
  let cidx ← match readInt s.program (s.pc.toNat + 1) with
    | some v => pure v
    | none => .error (.ub "immediate past the end of the program")
  if cidx < 0 then .error (.ub "negative constant index")
  else
    match s.constants.get? cidx.toNat with
    | none => .error (.ub "constant index out of range")
    | some (.num v) => do
        let (id, s) ← newObject fuel s
        let s := setHeap s id (.num v)
        let s ← doPush id s
        .ok { s with pc := s.pc + 5 }
    | some (.str t) => do
        let (id, s) ← newObject fuel s
        let s := setHeap s id (.str t)
        let s ← doPush id s
        .ok { s with pc := s.pc + 5 }

/-- The `OP_POP` case. -/
def execPop (s : VmState) : Except VmError VmState := do
  let (_, s) ← doPop s
  .ok { s with pc := s.pc + 1 }

/-- The `OP_PRINT` case: pop; numbers and strings are printed, any other
value is silently discarded. -/
def execPrint (s : VmState) : Except VmError VmState := do
  let (v, s) ← doPop s
  let d ← heapObj s v
  let s :=
    match d with
    | .num x => { s with output := s.output ++ [OutItem.num x] }
    | .str t => { s with output := s.output ++ [OutItem.str t] }
    | _ => s
  .ok { s with pc := s.pc + 1 }

/-- The `OP_SET` case: grow the runtime variable count, pop into the slot. -/
def execSet (s : VmState) : Except VmError VmState := do
  let varIdx ← match readInt s.program (s.pc.toNat + 1) with
    | some v => pure v
    | none => .error (.ub "immediate past the end of the program")
  if varIdx < 0 then .error (.ub "negative variable index")
  else
    let s := { s with rtVarAmount := max s.rtVarAmount (varIdx.toNat + 1) }
    let (v, s) ← doPop s
    .ok { s with globals := setGlobal s.globals varIdx.toNat v, pc := s.pc + 5 }

/-- The `OP_GET` case.  The C pushes whatever pointer the slot holds,
including the NULL of a never-assigned slot; every later use of that NULL
is undefined, so the model stops at the push. -/
def execGet (s : VmState) : Except VmError VmState := do
  let varIdx ← match readInt s.program (s.pc.toNat + 1) with
    | some v => pure v
    | none => .error (.ub "immediate past the end of the program")
  if varIdx < 0 then .error (.ub "negative variable index")
  else
    match s.globals.getD varIdx.toNat none with
    | none => .error (.ub "push of a never-assigned global")
    | some id => do
        let s ← doPush id s
        .ok { s with pc := s.pc + 5 }

/-- The `OP_READ` case: one input line becomes a fresh string object. -/
def execRead (fuel : Nat) (s : VmState) : Except VmError VmState :=
  match s.input with
  | [] => .error (.ub "end of input during READ")
  | line :: rest => do
      let (id, s) ← newObject fuel s
      let s := setHeap s id (.str line)
      let s ← doPush id { s with input := rest }
      .ok { s with pc := s.pc + 1 }

/-- The `OP_GOTO` case. -/
def execGoto (s : VmState) : Except VmError VmState := do
  let newPc ← match readInt s.program (s.pc.toNat + 1) with
    | some v => pure v
    | none => .error (.ub "immediate past the end of the program")
  .ok { s with pc := newPc }

/-- The `OP_GOTOZ` case. -/
def execGotoZ (s : VmState) : Except VmError VmState := do
  let newPc ← match readInt s.program (s.pc.toNat + 1) with
    | some v => pure v
    | none => .error (.ub "immediate past the end of the program")
  let (v, s) ← doPop s
  let x ← heapNum s v
  .ok { s with pc := if x.eqZero then newPc else s.pc + 5 }

/-- The `OP_GOTONZ` case. -/
def execGotoNZ (s : VmState) : Except VmError VmState := do
  let newPc ← match readInt s.program (s.pc.toNat + 1) with
    | some v => pure v
    | none => .error (.ub "immediate past the end of the program")
  let (v, s) ← doPop s
  let x ← heapNum s v
  .ok { s with pc := if x.eqZero then s.pc + 5 else newPc }

/-- The `OP_CALL` case: save the frame, jump to the procedure's entry pc. -/
def execCall (s : VmState) : Except VmError VmState := do
  let nargs ← match readInt s.program (s.pc.toNat + 1) with
    | some v => pure v
    | none => .error (.ub "immediate past the end of the program")
  let pcIdx ← match readInt s.program (s.pc.toNat + 5) with
    | some v => pure v
    | none => .error (.ub "immediate past the end of the program")
  if pcIdx < 0 then .error (.ub "negative procedure index")
  else
    match s.functionPcs.get? pcIdx.toNat with
    | none => .error (.ub "procedure index out of range")
    | some entry =>
        let s := doPushIndir nargs { s with pc := s.pc + 9 }
        .ok { s with pc := entry }

/-- The `OP_RETURN_VALUE` case: pop the return value, return, push it back. -/
def execReturnValue (s : VmState) : Except VmError VmState := do
  let (rv, s) ← doPop s
  let s ← doPopIndir s
  doPush rv s

/-- The `OP_GETLOCAL` case: `Stack[FramePointer + imm]` (negative
immediates address arguments); a slot outside the live prefix is stale C
memory, undefined here. -/
def execGetLocal (s : VmState) : Except VmError VmState := do
  let localIdx ← match readInt s.program (s.pc.toNat + 1) with
    | some v => pure v
    | none => .error (.ub "immediate past the end of the program")
  let pos := (s.framePointer : Int) + localIdx
  if 0 ≤ pos ∧ pos < (s.stack.length : Int) then
    match s.stack.get? pos.toNat with
    | some v => do
        let s ← doPush v s
        .ok { s with pc := s.pc + 5 }
    | none => .error (.ub "local slot outside the live stack")
  else .error (.ub "local slot outside the live stack")

/-- The `OP_SETLOCAL` case. -/
def execSetLocal (s : VmState) : Except VmError VmState := do
  let localIdx ← match readInt s.program (s.pc.toNat + 1) with
    | some v => pure v
    | none => .error (.ub "immediate past the end of the program")
  let (v, s) ← doPop s
  let pos := (s.framePointer : Int) + localIdx
  if 0 ≤ pos ∧ pos < (s.stack.length : Int) then
    .ok { s with stack := s.stack.set pos.toNat v, pc := s.pc + 5 }
  else .error (.ub "local slot outside the live stack")

/-- The `OP_MAKE_ARRAY` case: pop the length, allocate a null-initialized
array (a negative length would make C request an absurd allocation). -/
def execMakeArray (fuel : Nat) (s : VmState) : Except VmError VmState := do
  let (v, s) ← doPop s
  let x ← heapNum s v
  let len := x.toInt
  if len < 0 then .error (.ub "negative array length")
  else do
    let (id, s) ← newObject fuel s
    let s := setHeap s id (.arr (List.replicate len.toNat none))
    let s ← doPush id s
    .ok { s with pc := s.pc + 1 }

/-- The `OP_SETINDEX` case: pop value, index, array; bounds-check, store. -/
def execSetIndex (s : VmState) : Except VmError VmState := do
  let (vid, s) ← doPop s
  let (iv, s) ← doPop s
  let x ← heapNum s iv
  let index := x.toInt
  let (aid, s) ← doPop s
  let d ← heapObj s aid
  match d with
  | .arr vs =>
      if 0 ≤ index ∧ index < (vs.length : Int) then
        .ok { setHeap s aid (.arr (vs.set index.toNat (some vid))) with
                pc := s.pc + 1 }
      else .error (.fatal "Array index out of bounds error")
  | _ => .error (.ub "array field of a non-array object")

/-- The `OP_GETINDEX` case: pop index and array; bounds-check; push the
slot, or a fresh number 0 when the slot was never written. -/
def execGetIndex (fuel : Nat) (s : VmState) : Except VmError VmState := do
  let (iv, s) ← doPop s
  let x ← heapNum s iv
  let index := x.toInt
  let (aid, s) ← doPop s
  let d ← heapObj s aid
  match d with
  | .arr vs =>
      if 0 ≤ index ∧ index < (vs.length : Int) then
        match vs.getD index.toNat none with
        | some v => do
            let s ← doPush v s
            .ok { s with pc := s.pc + 1 }
        | none => do
            let (id, s) ← newObject fuel s
            let s := setHeap s id (.num (FP.ofInt 0))
            let s ← doPush id s
            .ok { s with pc := s.pc + 1 }
      else .error (.fatal "Array index out of bounds error")
  | _ => .error (.ub "array field of a non-array object")

/-- `ExecuteCycle`: decode and execute the instruction at the program
counter.  The opcode values match the C enum; an opcode with no case
leaves the state unchanged, exactly as the C `switch` does. -/
def executeCycle (fuel : Nat) (s : VmState) : Except VmError VmState :=
  if s.pc < 0 then .error (.ub "negative program counter")
  else
    match s.program.get? s.pc.toNat with
    | none => .error (.ub "program counter past the end of the program")
    | some op =>
      match op with
      | 0 => execPush fuel s                                           -- OP_PUSH
      | 1 => execPop s                                                 -- OP_POP
      | 2 => execBinOp fuel s FP.add                                   -- OP_ADD
      | 3 => execBinOp fuel s FP.sub                                   -- OP_SUB
      | 4 => execBinOp fuel s FP.mul                                   -- OP_MUL
      | 5 => execBinOp fuel s FP.div                                   -- OP_DIV
      | 6 => execBinOp fuel s                                          -- OP_MOD
          (fun a b => .ofInt (Int.tmod a.toInt b.toInt))
      | 7 => execBinOp fuel s                                          -- OP_OR
          (fun a b => .ofInt (ofBits32 (Nat.lor (toBits32 a.toInt) (toBits32 b.toInt))))
      | 8 => execBinOp fuel s                                          -- OP_AND
          (fun a b => .ofInt (ofBits32 (Nat.land (toBits32 a.toInt) (toBits32 b.toInt))))
      | 9 => execBinOp fuel s (fun a b => .ofBool (a.lt b))            -- OP_LT
      | 10 => execBinOp fuel s (fun a b => .ofBool (a.le b))           -- OP_LTE
      | 11 => execBinOp fuel s (fun a b => .ofBool (b.lt a))           -- OP_GT
      | 12 => execBinOp fuel s (fun a b => .ofBool (b.le a))           -- OP_GTE
      | 13 => execBinOp fuel s (fun a b => .ofBool (a.ieeeEq b))       -- OP_EQU
      | 14 => execBinOp fuel s (fun a b => .ofBool (!a.ieeeEq b))      -- OP_NEQU
      | 15 => execPrint s                                              -- OP_PRINT
      | 16 => execSet s                                                -- OP_SET
      | 17 => execGet s                                                -- OP_GET
      | 18 => execRead fuel s                                          -- OP_READ
      | 19 => execGoto s                                               -- OP_GOTO
      | 20 => execGotoZ s                                              -- OP_GOTOZ
      | 21 => execGotoNZ s                                             -- OP_GOTONZ
      | 22 => execCall s                                               -- OP_CALL
      | 23 => doPopIndir s                                             -- OP_RETURN
      | 24 => execReturnValue s                                        -- OP_RETURN_VALUE
      | 25 => .error (.ub "foreign call: host-defined, outside the model")  -- OP_CALLF
      | 26 => execGetLocal s                                           -- OP_GETLOCAL
      | 27 => execSetLocal s                                           -- OP_SETLOCAL
      | 28 => execMakeArray fuel s                                     -- OP_MAKE_ARRAY
      | 29 => execSetIndex s                                           -- OP_SETINDEX
      | 30 => execGetIndex fuel s                                      -- OP_GETINDEX
      | 31 => .ok { s with pc := -1 }                                  -- OP_HALT
      | _ => .ok s  -- no case in the C switch: the state is unchanged

/-! ## Concrete machine states used by the claim theorems -/

/-- A machine about to execute `ADD` on a two-number stack with the live
count at the GC threshold: the allocation inside the instruction triggers
a collection. -/
def c2State : VmState :=
  { initInterpreter with
      program := [2], pc := 0, stack := [0, 1],
      heap := [(0, .num (.fin false 1)), (1, .num (.fin false 2))],
      nextId := 2, numObjects := 2, maxNumObjects := 2 }

/-- The allocation point inside that `ADD`: both operands already popped. -/
def c2AtAlloc : VmState := { c2State with stack := [] }

/-- A heap whose single object is an array containing itself
(built by `a = [1]  a[0] = a`). -/
def cyclicHeap : List (Nat × ObjData) := [(0, .arr [some 0])]

/-- A machine about to execute the 342nd nested zero-argument `CALL`: the
indirection stack already holds 341 frames (1023 of its 1024 slots). -/
def c5State : VmState :=
  { initInterpreter with
      program := [22, 0, 0, 0, 0, 0, 0, 0, 0], pc := 0,
      indirStack := List.replicate 1023 0 }

/-- The state after that call: 1026 indirection slots, past `MAX_INDIR`. -/
def c5After : VmState :=
  { c5State with pc := 0, framePointer := 0,
                 indirStack := 9 :: 0 :: 0 :: List.replicate 1023 0 }

/-- A compiler state holding one registered, never-assigned global `a`. -/
def c4CState : CState :=
  { program := [], vars := [⟨"a", false, []⟩],
    functionPcs := List.replicate 128 0, constants := [] }

/-- The result of compiling `a[0]` against `c4CState`: `GET 0` (the
uninitialized global), `PUSH 0`, `GETINDEX`. -/
def c4Result : CState :=
  { c4CState with program := [17, 0, 0, 0, 0, 0, 0, 0, 0, 0, 30] }

/-- The token stream of the input `a = b = e`. -/
def c8Toks : List Token :=
  [.ident "a", .ch '=', .ident "b", .ch '=', .ident "e", .eofTok]

/-- The left-associated tree `(a = b) = e`. -/
def c8LeftTree : Expr :=
  .binary (.ch '=') (.binary (.ch '=') (.id 0) (.id 1)) (.id 2)

/-- The right-associated tree `a = (b = e)` the claim asserts. -/
def c8RightTree : Expr :=
  .binary (.ch '=') (.id 0) (.binary (.ch '=') (.id 1) (.id 2))

/-- The compiler state after parsing `a = b = e`: the three registered
globals, none initialized. -/
def c8CState : CState :=
  { program := [],
    vars := [⟨"a", false, []⟩, ⟨"b", false, []⟩, ⟨"e", false, []⟩],
    functionPcs := List.replicate 128 0, constants := [] }

/-- A machine with one live, rooted object, used to instantiate the GC
trigger-policy theorem. -/
def c9GcState : VmState :=
  { initInterpreter with
      stack := [0], heap := [(0, .num (.fin false 1))],
      nextId := 1, numObjects := 1, maxNumObjects := 2 }

/-- A machine about to `PRINT` an array value. -/
def c10State : VmState :=
  { initInterpreter with
      program := [15], pc := 0, stack := [3],
      heap := [(3, .arr [])], nextId := 4, numObjects := 1,
      maxNumObjects := 10 }

/-- Pre-call machine for the frame-discipline witness: two values on the
stack (the topmost the single argument), about to call. -/
def c1PreCall : VmState :=
  { initInterpreter with stack := [100, 101], pc := 7, framePointer := 0 }

/-- The matching machine at its `RETURN`: the frame as `DoPushIndir` left
it. -/
def c1AtReturn : VmState :=
  { initInterpreter with
      program := [23], pc := 0, stack := [100, 101],
      indirStack := [7, 0, 1], framePointer := 2 }

/-- The matching machine at a `RETURN_VALUE`, the return value (object 55)
on top. -/
def c1AtReturnValue : VmState :=
  { initInterpreter with
      program := [24], pc := 0, stack := [100, 101, 55],
      indirStack := [7, 0, 1], framePointer := 2 }

/-- A machine about to `GETINDEX` slot 1 (never written) of a length-3
array: stack holds the array (id 0) then the index (id 1). -/
def c6GetState : VmState :=
  { initInterpreter with
      program := [30], pc := 0, stack := [0, 1],
      heap := [(0, .arr [none, none, none]), (1, .num (.ofInt 1))],
      nextId := 2, numObjects := 2, maxNumObjects := 10 }

/-- The same machine with index 3 (equal to the length). -/
def c6GetOobState : VmState :=
  { c6GetState with heap := [(0, .arr [none, none, none]), (1, .num (.ofInt 3))] }

/-- A machine about to `SETINDEX` with index −1: stack holds array (id 0),
index (id 1), value (id 2). -/
def c6SetOobState : VmState :=
  { initInterpreter with
      program := [29], pc := 0, stack := [0, 1, 2],
      heap := [(0, .arr [none, none, none]), (1, .num (.ofInt (-1))),
               (2, .num (.ofInt 7))],
      nextId := 3, numObjects := 3, maxNumObjects := 10 }

/-! ## Helper lemmas -/

/-- Popping from a stack with top `v`. -/
theorem doPop_concat (s : VmState) (base : List Nat) (v : Nat)
    (h : s.stack = base ++ [v]) :
    doPop s = .ok (v, { s with stack := base }) := by
  simp [doPop, h]

/-- Pushing below the operand-stack capacity succeeds. -/
theorem doPush_lt (v : Nat) (s : VmState) (h : s.stack.length < MAX_STACK) :
    doPush v s = .ok { s with stack := s.stack ++ [v] } := by
  unfold doPush; rw [if_neg (not_le.mpr h)]

/-- An allocation below the threshold does not collect. -/
theorem newObject_noGc (fuel : Nat) (s : VmState)
    (h : s.numObjects < s.maxNumObjects) :
    newObject fuel s = .ok (allocate s) := by
  unfold newObject; rw [if_neg (not_le.mpr h)]

/-- `==` on doubles is reflexive away from NaN. -/
theorem FP.ieeeEq_refl (v : FP) (h : v.isNan = false) : v.ieeeEq v = true := by
  cases v with
  | nan => simp [FP.isNan] at h
  | fin neg mag => simp [FP.ieeeEq, FP.isNan]

/-- A successful scan is unaffected by appending to the pool. -/
theorem findIdx?_of_append {α : Type} {p : α → Bool} {l t : List α} {i : Nat}
    (h : l.findIdx? p = some i) : (l ++ t).findIdx? p = some i := by
  rw [List.findIdx?_append, h]; rfl

/-- After a successful number registration, the pool's first `==`-match for
that number sits at the returned index. -/
theorem registerNumber_findIdx (cs : List ConstInfo) (v : FP) (i : Nat)
    (cs' : List ConstInfo) (hnan : v.isNan = false)
    (h : registerNumber cs v = some (i, cs')) :
    cs'.findIdx? (constNumMatches v) = some i := by
  unfold registerNumber at h
  cases hf : cs.findIdx? (constNumMatches v) with
  | some i' =>
      rw [hf] at h
      obtain ⟨h1, h2⟩ := Prod.mk.injEq .. ▸ Option.some.injEq .. ▸ h
      subst h1; subst h2; exact hf
  | none =>
      rw [hf] at h
      by_cases hl : cs.length < MAX_CONST_AMT
      · simp only [if_pos hl, Option.some.injEq, Prod.mk.injEq] at h
        obtain ⟨h1, h2⟩ := h
        subst h1; subst h2
        rw [List.findIdx?_append, hf]
        simp [List.findIdx?, constNumMatches, FP.ieeeEq_refl v hnan]
      · simp [if_neg hl] at h

/-- After a successful string registration, the pool's first byte-match for
that string sits at the returned index. -/
theorem registerString_findIdx (cs : List ConstInfo) (x : String) (i : Nat)
    (cs' : List ConstInfo) (h : registerString cs x = some (i, cs')) :
    cs'.findIdx? (constStrMatches x) = some i := by
  unfold registerString at h
  cases hf : cs.findIdx? (constStrMatches x) with
  | some i' =>
      rw [hf] at h
      obtain ⟨h1, h2⟩ := Prod.mk.injEq .. ▸ Option.some.injEq .. ▸ h
      subst h1; subst h2; exact hf
  | none =>
      rw [hf] at h
      by_cases hl : cs.length < MAX_CONST_AMT
      · simp only [if_pos hl, Option.some.injEq, Prod.mk.injEq] at h
        obtain ⟨h1, h2⟩ := h
        subst h1; subst h2
        rw [List.findIdx?_append, hf]
        simp [List.findIdx?, constStrMatches]
      · simp [if_neg hl] at h

/-! ## C3 -/

/-- C3: the claim says the mark phase terminates on cyclic heaps because
the mark bit is set before recursing.  The source sets the bit only after
recursing into the children, so on a heap whose single object is an array
containing itself, `Mark` re-enters the same unmarked object forever: for
every recursion bound the embedded traversal fails to finish.  (In C this
is unbounded recursion — a stack overflow.) -/
theorem c3_mark_diverges_on_cyclic_heap : ∀ fuel, mark fuel cyclicHeap [] 0 = none := by
  intro fuel
  induction fuel with
  | zero => rfl
  | succ n ih =>
      simp only [cyclicHeap] at ih
      simp [mark, cyclicHeap, ih]

/-! ## C7 -/

/-- C7 counterexample: the dedup scan compares numbers with the C `==`,
which is false on NaN even for identical bit patterns, so registering the
very same NaN twice yields two distinct constant-pool indices — refuting
bitwise-equality dedup for numbers. -/
theorem c7_nan_not_deduplicated :
    registerNumber [] FP.nan = some (0, [.num .nan]) ∧
    registerNumber [.num FP.nan] FP.nan = some (1, [.num .nan, .num .nan]) ∧
    (1 : Nat) ≠ 0 :=
  ⟨by decide, by decide, by decide⟩

/-- C7 (amended): registration only ever appends to the pool, and dedup is
governed by C `==` equality (byte equality for strings): once a non-NaN
number is registered at index `i`, registering it again after any further
registrations returns `i` — while `-0.0` dedups against `+0.0` (last
conjunct) and NaN never dedups. -/
theorem c7_dedup_under_ieee_equality :
    (∀ cs x j cs₂, registerNumber cs x = some (j, cs₂) → ∃ t, cs₂ = cs ++ t) ∧
    (∀ cs x j cs₂, registerString cs x = some (j, cs₂) → ∃ t, cs₂ = cs ++ t) ∧
    (∀ cs v i cs' t, v.isNan = false → registerNumber cs v = some (i, cs') →
      registerNumber (cs' ++ t) v = some (i, cs' ++ t)) ∧
    (∀ cs x i cs' t, registerString cs x = some (i, cs') →
      registerString (cs' ++ t) x = some (i, cs' ++ t)) ∧
    registerNumber [.num (.fin false 0)] (.fin true 0) = some (0, [.num (.fin false 0)]) := by
  refine ⟨?_, ?_, ?_, ?_, by decide⟩
  · intro cs x j cs₂ h
    unfold registerNumber at h
    cases hf : cs.findIdx? (constNumMatches x) with
    | some i => rw [hf] at h
                exact ⟨[], by simp_all⟩
    | none =>
        rw [hf] at h
        by_cases hl : cs.length < MAX_CONST_AMT
        · simp [hl] at h; exact ⟨[.num x], h.2.symm⟩
        · simp [hl] at h
  · intro cs x j cs₂ h
    unfold registerString at h
    cases hf : cs.findIdx? (constStrMatches x) with
    | some i => rw [hf] at h
                exact ⟨[], by simp_all⟩
    | none =>
        rw [hf] at h
        by_cases hl : cs.length < MAX_CONST_AMT
        · simp [hl] at h; exact ⟨[.str x], h.2.symm⟩
        · simp [hl] at h
  · intro cs v i cs' t hnan h
    unfold registerNumber
    rw [findIdx?_of_append (registerNumber_findIdx cs v i cs' hnan h)]
  · intro cs x i cs' t h
    unfold registerString
    rw [findIdx?_of_append (registerString_findIdx cs x i cs' h)]

/-- C7 witness: the amended dedup law evaluated concretely — registering
`5.0`, then a string, then `5.0` again returns the original index 0, and a
re-registered string keeps its index too. -/
theorem c7_dedup_witness :
    registerNumber ([.num (.ofInt 5)] ++ [.str "hi"]) (.ofInt 5) =
      some (0, [.num (.ofInt 5)] ++ [.str "hi"]) ∧
    registerString ([.str "hi"] ++ [.num (.ofInt 5)]) "hi" =
      some (0, [.str "hi"] ++ [.num (.ofInt 5)]) :=
  ⟨c7_dedup_under_ieee_equality.2.2.1 [] (.ofInt 5) 0 [.num (.ofInt 5)] [.str "hi"]
      (by decide) (by decide),
   c7_dedup_under_ieee_equality.2.2.2.1 [] "hi" 0 [.str "hi"] [.num (.ofInt 5)]
      (by decide)⟩

/-! ## C9 -/

/-- C9: the collection trigger policy.  An allocation collects exactly when
the live count has reached the threshold (first two conjuncts); a completed
collection leaves the threshold at twice the surviving live count; and
interpreter initialization seeds the threshold with 2. -/
theorem c9_gc_trigger_policy :
    (∀ fuel s, s.numObjects < s.maxNumObjects → newObject fuel s = .ok (allocate s)) ∧
    (∀ fuel s, s.maxNumObjects ≤ s.numObjects →
      newObject fuel s = (garbageCollect fuel s).map allocate) ∧
    (∀ fuel s s', garbageCollect fuel s = .ok s' →
      s'.maxNumObjects = 2 * s'.numObjects) ∧
    initInterpreter.maxNumObjects = 2 := by
  refine ⟨newObject_noGc, ?_, ?_, rfl⟩
  · intro fuel s h
    unfold newObject; rw [if_pos h]
  · intro fuel s s' h
    unfold garbageCollect at h
    cases hm : markAll fuel s with
    | none => rw [hm] at h; exact absurd h (by simp)
    | some m =>
        rw [hm] at h
        obtain rfl := (Except.ok.injEq .. ▸ h)
        simp [Nat.mul_comm]

/-- C9 witness: the trigger policy at concrete machines — an allocation
below the threshold allocates without collecting, one at the threshold
collects first, and a finished collection of `c9GcState` (whose single
object survives) doubles the live count into the threshold. -/
theorem c9_gc_trigger_policy_witness :
    (newObject 0 c9GcState = .ok (allocate c9GcState)) ∧
    (newObject 3 c2State = (garbageCollect 3 c2State).map allocate) ∧
    c9GcState.maxNumObjects = 2 * c9GcState.numObjects :=
  ⟨c9_gc_trigger_policy.1 0 c9GcState (by decide),
   c9_gc_trigger_policy.2.1 3 c2State (by decide),
   c9_gc_trigger_policy.2.2.1 2 c9GcState c9GcState (by rfl)⟩

/-! ## C2 -/

/-- C2: the GC root invariant at allocation points fails for binary
operations.  Executing `ADD` on a machine whose two number operands are the
only objects and whose live count sits at the threshold: both operands are
popped before the result is allocated, the collection triggered by that
allocation finds empty roots (second conjunct) and frees both operands
(third conjunct), and the instruction then reads the freed operands — a
use-after-free (first conjunct), for every mark-recursion bound. -/
theorem c2_binop_operands_collected :
    (∀ fuel, executeCycle fuel c2State =
      .error (.ub "object read through a dangling pointer")) ∧
    (∀ fuel, markAll fuel c2AtAlloc = some []) ∧
    (∀ fuel, garbageCollect fuel c2AtAlloc =
      .ok { c2AtAlloc with heap := [], numObjects := 0, maxNumObjects := 0 }) :=
  ⟨fun _ => rfl, fun _ => rfl, fun _ => rfl⟩

/-! ## C5 -/

set_option maxRecDepth 4096 in
/-- C5: `DoPushIndir` performs no capacity check, so the indirection stack
index exceeds `MAX_INDIR` instead of the overflowing call failing: every
frame push grows the stack by 3 unconditionally (first conjunct), and from
a machine whose indirection stack already holds 1023 of its 1024 slots the
next `CALL` executes without any error, leaving 1026 slots (the C writes
`IndirStack[1023..1025]`, two of them out of bounds). -/
theorem c5_indir_overflow_unchecked :
    (∀ nargs s, (doPushIndir nargs s).indirStack.length = s.indirStack.length + 3) ∧
    (∀ fuel, executeCycle fuel c5State = .ok c5After) ∧
    MAX_INDIR < c5After.indirStack.length := by
  refine ⟨?_, fun _ => rfl, ?_⟩
  · intro nargs s; simp [doPushIndir]
  · show MAX_INDIR < (9 :: 0 :: 0 :: List.replicate 1023 (0 : Int)).length
    simp [MAX_INDIR, List.length_replicate]

/-! ## Dispatch lemmas: one per opcode a claim needs. -/

theorem executeCycle_print (fuel : Nat) (s : VmState)
    (hpc : 0 ≤ s.pc) (hop : s.program.get? s.pc.toNat = some OP_PRINT) :
    executeCycle fuel s = execPrint s := by
  unfold executeCycle
  rw [if_neg (not_lt.mpr hpc), hop]
  rfl

theorem executeCycle_return (fuel : Nat) (s : VmState)
    (hpc : 0 ≤ s.pc) (hop : s.program.get? s.pc.toNat = some OP_RETURN) :
    executeCycle fuel s = doPopIndir s := by
  unfold executeCycle
  rw [if_neg (not_lt.mpr hpc), hop]
  rfl

theorem executeCycle_returnValue (fuel : Nat) (s : VmState)
    (hpc : 0 ≤ s.pc) (hop : s.program.get? s.pc.toNat = some OP_RETURN_VALUE) :
    executeCycle fuel s = execReturnValue s := by
  unfold executeCycle
  rw [if_neg (not_lt.mpr hpc), hop]
  rfl

theorem executeCycle_getIndex (fuel : Nat) (s : VmState)
    (hpc : 0 ≤ s.pc) (hop : s.program.get? s.pc.toNat = some OP_GETINDEX) :
    executeCycle fuel s = execGetIndex fuel s := by
  unfold executeCycle
  rw [if_neg (not_lt.mpr hpc), hop]
  rfl

theorem executeCycle_setIndex (fuel : Nat) (s : VmState)
    (hpc : 0 ≤ s.pc) (hop : s.program.get? s.pc.toNat = some OP_SETINDEX) :
    executeCycle fuel s = execSetIndex s := by
  unfold executeCycle
  rw [if_neg (not_lt.mpr hpc), hop]
  rfl

/-! ## C10 -/

/-- C10: `PRINT` on a value that is neither a number nor a string (an array
or a native value) pops it, emits nothing, raises no error, and advances
the program counter by one — everything else in the state unchanged. -/
theorem c10_print_silently_consumes_other_types (fuel : Nat) (s : VmState)
    (base : List Nat) (objId : Nat) (d : ObjData)
    (hpc : 0 ≤ s.pc)
    (hop : s.program.get? s.pc.toNat = some OP_PRINT)
    (hstk : s.stack = base ++ [objId])
    (hlook : s.heap.lookup objId = some d)
    (hd : (∃ vs, d = .arr vs) ∨ (∃ cs, d = .native cs)) :
    executeCycle fuel s = .ok { s with stack := base, pc := s.pc + 1 } := by
  rw [executeCycle_print fuel s hpc hop]
  unfold execPrint
  rw [doPop_concat s base objId hstk]
  simp only [bind, Except.bind, heapObj, hlook]
  rcases hd with ⟨vs, rfl⟩ | ⟨cs, rfl⟩ <;> rfl

/-- C10 witness: printing an array at a concrete machine. -/
theorem c10_print_witness :
    executeCycle 0 c10State = .ok { c10State with stack := [], pc := c10State.pc + 1 } :=
  c10_print_silently_consumes_other_types 0 c10State [] 3 (.arr [])
    (by decide) rfl rfl rfl (Or.inl ⟨[], rfl⟩)

/-! ## C4 -/

/-- C4 counterexample: with global `a` registered but never assigned
(initialization flag false, third conjunct), compiling the read `a[0]`
(the array operand of an index access) is not a fatal error: it succeeds
and the emitted bytecode begins with `GET` of that uninitialized slot. -/
theorem c4_array_operand_escapes_check :
    compileExpr 2 c4CState (.arrayIndex true 0 (.num 0)) = some c4Result ∧
    c4Result.program.get? 0 = some OP_GET ∧
    (c4CState.vars.get? 0).map VarInfo.initialized = some false :=
  ⟨rfl, rfl, rfl⟩

/-- C4 (amended): the use-before-set check covers exactly the plain
identifier reads — compiling `EXP_ID` of an uninitialized global is a fatal
error for every state and recursion bound — while the array operand of an
index access is compiled to `GET` with no initialization check (second
group, at the concrete uninitialized global `a`). -/
theorem c4_use_before_set_id_only :
    (∀ fuel st i v, st.vars.get? i = some v → v.initialized = false →
      compileExpr fuel st (.id i) = none) ∧
    (compileExpr 2 c4CState (.arrayIndex true 0 (.num 0)) = some c4Result ∧
     c4Result.program.get? 0 = some OP_GET) := by
  refine ⟨?_, rfl, rfl⟩
  intro fuel st i v h1 h2
  cases fuel with
  | zero => rfl
  | succ n =>
      show (match st.vars.get? i with
            | none => none
            | some v =>
                if !v.initialized then none
                else do
                  let st ← generateCode st OP_GET
                  generateInt st (i : Int)) = none
      rw [h1]
      simp [h2]

/-- C4 witness: the fatal use-before-set diagnostic at the concrete
uninitialized global `a`. -/
theorem c4_use_before_set_witness :
    compileExpr 1 c4CState (.id 0) = none :=
  c4_use_before_set_id_only.1 1 c4CState 0 ⟨"a", false, []⟩ rfl rfl

/-! ## C8 -/

/-- C8 counterexample: parsing the token stream of `a = b = e` produces the
left-associated tree `(a = b) = e`, which differs from the right-associated
tree `a = (b = e)` the claim asserts. -/
theorem c8_assignment_left_associated :
    (parseProgram 20 c8Toks).map Prod.fst = some [c8LeftTree] ∧
    c8LeftTree ≠ c8RightTree := by
  refine ⟨rfl, ?_⟩
  intro h
  simp only [c8LeftTree, c8RightTree] at h
  injection h with h1 h2 h3
  injection h2

/-- C8 (amended): equal-precedence operators fold left in `ParseBinRhs`,
so `a = b = e` parses as `(a = b) = e` (with `a`,`b`,`e` registered as
globals 0,1,2), and the compiler then rejects that tree because the
left-hand side of the inner assignment is not an assignable expression. -/
theorem c8_left_assoc_then_rejected :
    (parseProgram 20 c8Toks).map Prod.fst = some [c8LeftTree] ∧
    (parseProgram 20 c8Toks).map (fun p => p.2.vars) = some c8CState.vars ∧
    compileExpr 5 c8CState c8LeftTree = none :=
  ⟨rfl, rfl, rfl⟩

/-- Reading a number object found in the heap. -/
theorem heapNum_lookup (s : VmState) (id : Nat) (v : FP)
    (h : s.heap.lookup id = some (.num v)) : heapNum s id = .ok v := by
  simp [heapNum, heapObj, h, bind, Except.bind]

/-- Reading an object found in the heap. -/
theorem heapObj_lookup (s : VmState) (id : Nat) (d : ObjData)
    (h : s.heap.lookup id = some d) : heapObj s id = .ok d := by
  simp [heapObj, h]

/-- `DoPopIndir` at a frame exactly as `DoPushIndir` left it: the stack is
cut to the pre-call size minus nargs, and frame pointer and pc return to
their values at the push. -/
theorem doPopIndir_frame (s0 : VmState) (nargs : Nat) (s : VmState)
    (hind : s.indirStack = (doPushIndir (nargs : Int) s0).indirStack)
    (hfp : s.framePointer = (doPushIndir (nargs : Int) s0).framePointer)
    (hlen : s0.stack.length ≤ s.stack.length)
    (hn : nargs ≤ s0.stack.length) :
    doPopIndir s = .ok { s with
        stack := s.stack.take (s0.stack.length - nargs),
        indirStack := s0.indirStack,
        framePointer := s0.framePointer,
        pc := s0.pc } := by
  have hind' : s.indirStack =
      s0.pc :: (s0.framePointer : Int) :: (nargs : Int) :: s0.indirStack := hind
  have hfp' : s.framePointer = s0.stack.length := hfp
  unfold doPopIndir
  rw [hind']
  show (if s.framePointer ≤ s.stack.length ∧ 0 ≤ ((nargs : Int)) ∧
          ((nargs : Int)) ≤ (s.framePointer : Int) ∧ 0 ≤ ((s0.framePointer : Int)) then
        Except.ok { s with
          stack := List.take (s.framePointer - ((nargs : Int)).toNat) s.stack,
          indirStack := s0.indirStack,
          framePointer := ((s0.framePointer : Int)).toNat,
          pc := s0.pc }
      else Except.error (VmError.ub "return frame outside the live stack")) = _
  rw [if_pos ⟨by omega, by positivity, by exact_mod_cast hfp' ▸ hn, by positivity⟩]
  rw [hfp']
  simp [Int.toNat_natCast]

/-- C1: call/return frame discipline.  For a machine executing the
matching `RETURN` (resp. `RETURN_VALUE`) of a call, with the indirection
stack and frame pointer as `DoPushIndir` established them at the pre-call
state `s0`: the return succeeds, the operand stack ends at the pre-call
size minus nargs (plus one, topped by the return value, for
`RETURN_VALUE`), and frame pointer, pc and indirection stack are restored
exactly to their values at the call. -/
theorem c1_return_frame_discipline :
    (∀ (fuel : Nat) (s0 s2 : VmState) (nargs : Nat),
      nargs ≤ s0.stack.length →
      0 ≤ s2.pc →
      s2.program.get? s2.pc.toNat = some OP_RETURN →
      s2.indirStack = (doPushIndir (nargs : Int) s0).indirStack →
      s2.framePointer = (doPushIndir (nargs : Int) s0).framePointer →
      s0.stack.length ≤ s2.stack.length →
      ∃ s3, executeCycle fuel s2 = .ok s3 ∧
        s3.stack.length = s0.stack.length - nargs ∧
        s3.framePointer = s0.framePointer ∧
        s3.pc = s0.pc ∧ s3.indirStack = s0.indirStack) ∧
    (∀ (fuel : Nat) (s0 s2 : VmState) (nargs : Nat) (base : List Nat) (retId : Nat),
      nargs ≤ s0.stack.length →
      0 ≤ s2.pc →
      s2.program.get? s2.pc.toNat = some OP_RETURN_VALUE →
      s2.stack = base ++ [retId] →
      s2.indirStack = (doPushIndir (nargs : Int) s0).indirStack →
      s2.framePointer = (doPushIndir (nargs : Int) s0).framePointer →
      s0.stack.length ≤ base.length →
      s0.stack.length - nargs < MAX_STACK →
      ∃ s3, executeCycle fuel s2 = .ok s3 ∧
        s3.stack.length = s0.stack.length - nargs + 1 ∧
        s3.stack.getLast? = some retId ∧
        s3.framePointer = s0.framePointer ∧
        s3.pc = s0.pc ∧ s3.indirStack = s0.indirStack) := by
  constructor
  · intro fuel s0 s2 nargs hn hpc hop hind hfp hlen
    rw [executeCycle_return fuel s2 hpc hop]
    rw [doPopIndir_frame s0 nargs s2 hind hfp hlen hn]
    refine ⟨_, rfl, ?_, rfl, rfl, rfl⟩
    simp only [List.length_take]
    omega
  · intro fuel s0 s2 nargs base retId hn hpc hop hstk hind hfp hlen hcap
    rw [executeCycle_returnValue fuel s2 hpc hop]
    unfold execReturnValue
    rw [doPop_concat s2 base retId hstk]
    simp only [bind, Except.bind]
    rw [doPopIndir_frame s0 nargs { s2 with stack := base } hind hfp hlen hn]
    dsimp only
    rw [doPush_lt retId _ (by simp only [List.length_take]; omega)]
    refine ⟨_, rfl, ?_, ?_, rfl, rfl, rfl⟩
    · simp only [List.length_append, List.length_take, List.length_cons,
        List.length_nil]
      omega
    · exact List.getLast?_concat _

/-- C1 witness: the frame discipline at a concrete one-argument call. -/
theorem c1_return_frame_discipline_witness :
    (∃ s3, executeCycle 0 c1AtReturn = .ok s3 ∧
        s3.stack.length = c1PreCall.stack.length - 1 ∧
        s3.framePointer = c1PreCall.framePointer ∧
        s3.pc = c1PreCall.pc ∧ s3.indirStack = c1PreCall.indirStack) ∧
    (∃ s3, executeCycle 0 c1AtReturnValue = .ok s3 ∧
        s3.stack.length = c1PreCall.stack.length - 1 + 1 ∧
        s3.stack.getLast? = some 55 ∧
        s3.framePointer = c1PreCall.framePointer ∧
        s3.pc = c1PreCall.pc ∧ s3.indirStack = c1PreCall.indirStack) :=
  ⟨c1_return_frame_discipline.1 0 c1PreCall c1AtReturn 1
      (by decide) (by decide) rfl rfl rfl (by decide),
   c1_return_frame_discipline.2 0 c1PreCall c1AtReturnValue 1 [100, 101] 55
      (by decide) (by decide) rfl rfl rfl rfl (by decide) (by decide)⟩

/-- Looking up a freshly allocated object just overwritten by `setHeap`. -/
theorem setHeap_head_lookup (s : VmState) (id : Nat) (d : ObjData)
    (rest : List (Nat × ObjData)) (h : s.heap = (id, .uninit) :: rest) :
    ((setHeap s id d).heap).lookup id = some d := by
  simp [setHeap, h, List.lookup]

/-- C6: array indexing semantics.  First conjunct: an in-bounds `GETINDEX`
on a never-written slot pushes a freshly allocated number 0 (the fresh
object id) and advances the pc (stated away from a GC trigger; the pushed
object is allocated after any collection, so the restriction is
inessential).  Second and third conjuncts: any `GETINDEX` or `SETINDEX`
whose index falls outside `0..length-1` — in particular `length` itself
and `-1` — is the fatal out-of-bounds diagnostic. -/
theorem c6_index_bounds_and_zero_default :
    (∀ (fuel : Nat) (s : VmState) (base : List Nat) (aid iid : Nat) (iv : FP)
        (vs : List (Option Nat)),
      0 ≤ s.pc →
      s.program.get? s.pc.toNat = some OP_GETINDEX →
      s.stack = base ++ [aid, iid] →
      s.heap.lookup iid = some (.num iv) →
      s.heap.lookup aid = some (.arr vs) →
      0 ≤ iv.toInt →
      iv.toInt < (vs.length : Int) →
      vs.getD iv.toInt.toNat none = none →
      s.numObjects < s.maxNumObjects →
      base.length < MAX_STACK →
      ∃ s', executeCycle fuel s = .ok s' ∧
        s'.stack = base ++ [s.nextId] ∧
        s'.heap.lookup s.nextId = some (.num (FP.ofInt 0)) ∧
        s'.pc = s.pc + 1) ∧
    (∀ (fuel : Nat) (s : VmState) (base : List Nat) (aid iid : Nat) (iv : FP)
        (vs : List (Option Nat)),
      0 ≤ s.pc →
      s.program.get? s.pc.toNat = some OP_GETINDEX →
      s.stack = base ++ [aid, iid] →
      s.heap.lookup iid = some (.num iv) →
      s.heap.lookup aid = some (.arr vs) →
      ¬(0 ≤ iv.toInt ∧ iv.toInt < (vs.length : Int)) →
      executeCycle fuel s = .error (.fatal "Array index out of bounds error")) ∧
    (∀ (fuel : Nat) (s : VmState) (base : List Nat) (aid iid vid : Nat) (iv : FP)
        (vs : List (Option Nat)),
      0 ≤ s.pc →
      s.program.get? s.pc.toNat = some OP_SETINDEX →
      s.stack = base ++ [aid, iid, vid] →
      s.heap.lookup iid = some (.num iv) →
      s.heap.lookup aid = some (.arr vs) →
      ¬(0 ≤ iv.toInt ∧ iv.toInt < (vs.length : Int)) →
      executeCycle fuel s = .error (.fatal "Array index out of bounds error")) := by
  refine ⟨?_, ?_, ?_⟩
  · intro fuel s base aid iid iv vs hpc hop hstk hiv harr hi0 hin hnull hnogc hcap
    rw [executeCycle_getIndex fuel s hpc hop]
    unfold execGetIndex
    have hstk2 : s.stack = (base ++ [aid]) ++ [iid] := by rw [hstk]; simp
    rw [doPop_concat s (base ++ [aid]) iid hstk2]
    simp only [bind, Except.bind]
    rw [heapNum_lookup { s with stack := base ++ [aid] } iid iv hiv]
    dsimp only
    rw [doPop_concat { s with stack := base ++ [aid] } base aid rfl]
    dsimp only
    rw [heapObj_lookup { s with stack := base } aid (.arr vs) harr]
    dsimp only
    rw [if_pos ⟨hi0, hin⟩]
    rw [hnull]
    dsimp only
    rw [newObject_noGc fuel { s with stack := base } hnogc]
    dsimp only [allocate]
    rw [doPush_lt _ _ (by exact hcap)]
    refine ⟨_, rfl, rfl, ?_, rfl⟩
    exact setHeap_head_lookup _ _ _ _ rfl
  · intro fuel s base aid iid iv vs hpc hop hstk hiv harr hoob
    rw [executeCycle_getIndex fuel s hpc hop]
    unfold execGetIndex
    have hstk2 : s.stack = (base ++ [aid]) ++ [iid] := by rw [hstk]; simp
    rw [doPop_concat s (base ++ [aid]) iid hstk2]
    simp only [bind, Except.bind]
    rw [heapNum_lookup { s with stack := base ++ [aid] } iid iv hiv]
    dsimp only
    rw [doPop_concat { s with stack := base ++ [aid] } base aid rfl]
    dsimp only
    rw [heapObj_lookup { s with stack := base } aid (.arr vs) harr]
    dsimp only
    rw [if_neg hoob]
  · intro fuel s base aid iid vid iv vs hpc hop hstk hiv harr hoob
    rw [executeCycle_setIndex fuel s hpc hop]
    unfold execSetIndex
    have hstk2 : s.stack = ((base ++ [aid]) ++ [iid]) ++ [vid] := by rw [hstk]; simp
    rw [doPop_concat s ((base ++ [aid]) ++ [iid]) vid hstk2]
    simp only [bind, Except.bind]
    rw [doPop_concat { s with stack := (base ++ [aid]) ++ [iid] } (base ++ [aid]) iid rfl]
    dsimp only
    rw [heapNum_lookup { s with stack := base ++ [aid] } iid iv hiv]
    dsimp only
    rw [doPop_concat { s with stack := base ++ [aid] } base aid rfl]
    dsimp only
    rw [heapObj_lookup { s with stack := base } aid (.arr vs) harr]
    dsimp only
    rw [if_neg hoob]

/-- C6 witness: a length-3 array — reading never-written slot 1 pushes a
fresh zero; index 3 (the length) and index −1 abort with the fatal
out-of-bounds diagnostic, for `GETINDEX` and `SETINDEX` alike. -/
theorem c6_index_bounds_witness :
    (∃ s', executeCycle 0 c6GetState = .ok s' ∧
        s'.stack = [] ++ [c6GetState.nextId] ∧
        s'.heap.lookup c6GetState.nextId = some (.num (FP.ofInt 0)) ∧
        s'.pc = c6GetState.pc + 1) ∧
    executeCycle 0 c6GetOobState = .error (.fatal "Array index out of bounds error") ∧
    executeCycle 0 c6SetOobState = .error (.fatal "Array index out of bounds error") :=
  ⟨c6_index_bounds_and_zero_default.1 0 c6GetState [] 0 1 (.ofInt 1)
      [none, none, none] (by decide) rfl rfl rfl rfl (by decide) (by decide)
      rfl (by decide) (by decide),
   c6_index_bounds_and_zero_default.2.1 0 c6GetOobState [] 0 1 (.ofInt 3)
      [none, none, none] (by decide) rfl rfl rfl rfl (by decide),
   c6_index_bounds_and_zero_default.2.2 0 c6SetOobState [] 0 1 2 (.ofInt (-1))
      [none, none, none] (by decide) rfl rfl rfl rfl (by decide)⟩
